import Mathlib

set_option linter.unnecessarySimpa false

/-!
Shallow embedding of the job-scraper core of `yuvrajinbhakti/getalljobs`.

Text is modelled as `List Char` (ASCII, the alphabet of every keyword and
pattern in the source).  Go's `strings.ToLower`, `strings.Contains`,
`strings.ReplaceAll` and the `regexp` patterns used by the classifiers are
embedded as executable Lean functions.  The mutable scraper state
(`jobs` slice plus `seenJobs` map guarded by `jobsMutex`) becomes explicit
state passing; the mutex-protected `addJob` of
`7advanced_remote_scraper.go` / `4jobswithnotification.go` is additionally
modelled as a fine-grained interleaving transition system to settle the
concurrency claim.
-/

namespace GetAllJobs

/-- ASCII lowering of one character, mirroring `strings.ToLower` on the
ASCII subset (all keywords and patterns in the source are ASCII). -/
def lowerChar (c : Char) : Char :=
  if 'A' ≤ c ∧ c ≤ 'Z' then Char.ofNat (c.toNat + 32) else c

/-- `strings.ToLower` on a character list. -/
def lowerStr (s : List Char) : List Char := s.map lowerChar

/-- `strings.Contains hay needle`: is `needle` a contiguous substring of
`hay`?  (Arguments here: needle first, then hay.) -/
def containsSub (needle : List Char) : List Char → Bool
  | [] => needle.isEmpty
  | c :: t => needle.isPrefixOf (c :: t) || containsSub needle t

/-- Does any keyword of the list occur as a substring of `text`
(the successive `strings.Contains` loop of the classifiers)? -/
def anyContained (keys : List String) (text : List Char) : Bool :=
  keys.any (fun k => containsSub k.toList text)

/-- One item of a (very small) regular-expression pattern: a literal
character, an optional character class, or a starred character class.
This is exactly the shape of every pattern string in the source. -/
inductive RItem where
  | lit (c : Char)
  | opt (p : Char → Bool)
  | star (p : Char → Bool)

/-- Go `regexp` class `\s` = `[\t\n\f\r ]`. -/
def isWS (c : Char) : Bool :=
  c = ' ' || c = '\t' || c = '\n' || c = '\x0c' || c = '\r'

/-- Character class `[\s-]`. -/
def isWSDash (c : Char) : Bool := isWS c || c = '-'

/-- Character class `[12]`. -/
def isOneTwo (c : Char) : Bool := c = '1' || c = '2'

/-- Continuation-style handling of a starred class: try the rest of the
pattern (`k`) at every position while the consumed characters satisfy
`p`. -/
def tryStar (p : Char → Bool) (k : List Char → Bool) : List Char → Bool
  | [] => k []
  | a :: t => k (a :: t) || (p a && tryStar p k t)

/-- Does the item sequence match some PREFIX of `s`?  (Disjunction over
all ways of resolving `?` and `*`; existence of a match is what Go's
`regexp.MatchString` reports.) -/
def matchItems : List RItem → List Char → Bool
  | [] => fun _ => true
  | .lit c :: ps => fun s =>
      match s with
      | [] => false
      | a :: t => a = c && matchItems ps t
  | .opt p :: ps => fun s =>
      matchItems ps s ||
        (match s with
         | [] => false
         | a :: t => p a && matchItems ps t)
  | .star p :: ps => tryStar p (matchItems ps)

/-- Unanchored match: does the pattern match starting at some position of
`s`?  This is the boolean returned by `regexp.MatchString pattern s`. -/
def regexMatch (ps : List RItem) : List Char → Bool
  | [] => matchItems ps []
  | c :: t => matchItems ps (c :: t) || regexMatch ps t

/-- Literal pattern text. -/
def litStr (s : String) : List RItem := s.toList.map RItem.lit

/-- Pattern `0[\s-]?[12]?\s*years?`. -/
def patYears : List RItem :=
  RItem.lit '0' :: RItem.opt isWSDash :: RItem.opt isOneTwo ::
    RItem.star isWS :: litStr ("year") ++ [RItem.opt (fun c => c = 's')]

/-- Pattern `entry[\s-]?level`. -/
def patEntryLevel : List RItem :=
  litStr ("entry") ++ RItem.opt isWSDash :: litStr ("level")

/-- Pattern `new[\s-]?grad`. -/
def patNewGrad : List RItem :=
  litStr ("new") ++ RItem.opt isWSDash :: litStr ("grad")

/-- Pattern `no[\s-]?experience`. -/
def patNoExperience : List RItem :=
  litStr ("no") ++ RItem.opt isWSDash :: litStr ("experience")

/-- Pattern `recent[\s-]?graduate`. -/
def patRecentGraduate : List RItem :=
  litStr ("recent") ++ RItem.opt isWSDash :: litStr ("graduate")

/-- The pattern list of `isFresherJob` in `7advanced_remote_scraper.go`. -/
def advPatterns : List (List RItem) :=
  [patYears, patEntryLevel, patNewGrad, patNoExperience, patRecentGraduate]

/-- The pattern list of `isFresherJob` in `6fresher_remote_scraper.go`. -/
def frsPatterns : List (List RItem) :=
  [patYears, patEntryLevel, patNewGrad]

/-- `fresherKeywords` of `NewJobScraper` in `7advanced_remote_scraper.go`. -/
def fresherKeywords : List String :=
  ["entry level", "junior", "fresher", "graduate", "trainee", "intern", "associate",
   "no experience", "0-1 years", "0-2 years", "recent graduate", "new grad",
   "entry-level", "beginner", "starting", "career starter", "apprentice"]

/-- `remoteKeywords` of `NewJobScraper` in `7advanced_remote_scraper.go`. -/
def remoteKeywords : List String :=
  ["remote", "work from home", "telecommute", "distributed", "virtual",
   "home office", "anywhere", "location independent", "wfh", "remote-first",
   "fully remote", "100% remote", "remote work", "remote position"]

/-- `excludeKeywords` of `NewJobScraper` in `7advanced_remote_scraper.go`. -/
def excludeKeywords : List String :=
  ["senior", "lead", "principal", "architect", "manager", "director", "head of",
   "5+ years", "10+ years", "experienced", "expert", "specialist", "chief",
   "3+ years", "4+ years", "minimum 3", "minimum 5", "at least 3", "at least 5"]

/-- `fresherKeywords` of `NewFresherJobScraper` in `6fresher_remote_scraper.go`. -/
def fresherKeywords6 : List String :=
  ["entry level", "junior", "fresher", "graduate", "trainee", "intern",
   "no experience", "0-1 years", "0-2 years", "recent graduate",
   "entry-level", "beginner", "associate", "new grad", "starting"]

/-- `remoteKeywords` of `NewFresherJobScraper` in `6fresher_remote_scraper.go`. -/
def remoteKeywords6 : List String :=
  ["remote", "work from home", "telecommute", "distributed",
   "home office", "anywhere", "location independent", "wfh"]

/-- `excludeKeywords` of `NewFresherJobScraper` in `6fresher_remote_scraper.go`. -/
def excludeKeywords6 : List String :=
  ["senior", "lead", "principal", "architect", "manager", "director",
   "5+ years", "10+ years", "experienced", "expert", "specialist"]

/-- `strings.ToLower(title + " " + description)`, the combined text both
classifiers scan. -/
def combinedText (title description : List Char) : List Char :=
  lowerStr (title ++ ' ' :: description)

/-- `isFresherJob` of `7advanced_remote_scraper.go` (lines 175-209):
exclusion keywords first, then fresher keywords, then the regexp
patterns. -/
def isFresherJob (title description : List Char) : Bool :=
  let combined := combinedText title description
  if anyContained excludeKeywords combined then false
  else if anyContained fresherKeywords combined then true
  else advPatterns.any (fun p => regexMatch p combined)

/-- `isFresherJob` of `6fresher_remote_scraper.go` (lines 108-140): same
shape, its own keyword lists and a shorter pattern list. -/
def isFresherJob6 (title description : List Char) : Bool :=
  let combined := combinedText title description
  if anyContained excludeKeywords6 combined then false
  else if anyContained fresherKeywords6 combined then true
  else frsPatterns.any (fun p => regexMatch p combined)

/-- `isRemoteJob` of `7advanced_remote_scraper.go` (lines 212-222):
substring scan of `remoteKeywords` over
`strings.ToLower(title + " " + location + " " + description)`. -/
def isRemoteJob (title location description : List Char) : Bool :=
  let combined := lowerStr (title ++ ' ' :: location ++ ' ' :: description)
  anyContained remoteKeywords combined

/-- `isRemoteJob` of `6fresher_remote_scraper.go` (lines 143-153). -/
def isRemoteJob6 (title location description : List Char) : Bool :=
  let combined := lowerStr (title ++ ' ' :: location ++ ' ' :: description)
  anyContained remoteKeywords6 combined

/-- `strings.ReplaceAll s " " "_"`: every space becomes an underscore. -/
def underscoreSpaces (s : List Char) : List Char :=
  s.map (fun c => if c = ' ' then '_' else c)

/-- `generateJobID` of `7advanced_remote_scraper.go` (lines 225-228) and
`4jobswithnotification.go` (lines 594-598):
`fmt.Sprintf("%s_%s", ReplaceAll(ToLower(company)," ","_"),
ReplaceAll(ToLower(title)," ","_"))`. -/
def generateJobID (title company : List Char) : List Char :=
  underscoreSpaces (lowerStr company) ++ '_' :: underscoreSpaces (lowerStr title)

/-- `RemoteJob` of `7advanced_remote_scraper.go` (the fields the dedup
core reads or stores). -/
structure RemoteJob where
  id : List Char := []
  platform : List Char := []
  title : List Char := []
  company : List Char := []
  location : List Char := []
  description : List Char := []
  salary : List Char := []
  postedDate : List Char := []
  url : List Char := []
  isRemote : Bool := false
  isFresher : Bool := false
  deriving DecidableEq, Repr

/-- The dedup key of a whole record. -/
def recordID (r : RemoteJob) : List Char := generateJobID r.title r.company

/-- The record as `addJob` stores it: `job.ID = jobID`. -/
def withID (r : RemoteJob) : RemoteJob := { r with id := recordID r }

/-- The shared mutable state of `JobScraper`: the `jobs` slice and the
`seenJobs` map (a `map[string]bool`, modelled as its lookup function). -/
structure ScraperState where
  jobs : List RemoteJob
  seenJobs : List Char → Bool

/-- `NewJobScraper`: empty `jobs` slice, empty `seenJobs` map. -/
def initState : ScraperState := ⟨[], fun _ => false⟩

/-- `addJob` of `7advanced_remote_scraper.go` (lines 231-242): under the
mutex, compute the ID; if unseen, append the record (with its ID set) and
mark the ID seen; otherwise do nothing. -/
def addJob (st : ScraperState) (job : RemoteJob) : ScraperState :=
  let jobID := generateJobID job.title job.company
  if st.seenJobs jobID then st
  else
    { jobs := st.jobs ++ [{ job with id := jobID }],
      seenJobs := fun s => if s = jobID then true else st.seenJobs s }

/-- A whole run of sequential `addJob` calls from the fresh scraper. -/
def runJobs (l : List RemoteJob) : ScraperState := l.foldl addJob initState

/-- One listing as extracted by the `OnHTML` handler of `scrapeRemoteOK`
(title, company, tags text). -/
structure Listing where
  title : List Char
  company : List Char
  tags : List Char
  deriving DecidableEq, Repr

/-- The `OnHTML` handler body of `scrapeRemoteOK` in
`7advanced_remote_scraper.go` (lines 253-269): drop the listing unless
both title and company are non-empty, then classify, then `addJob`. -/
def processRemoteOKListing (st : ScraperState) (e : Listing) : ScraperState :=
  if e.title ≠ [] ∧ e.company ≠ [] then
    if isFresherJob e.title e.tags then
      addJob st
        { platform := ("RemoteOK").toList,
          title := e.title,
          company := e.company,
          location := ("Remote").toList,
          description := e.tags,
          isRemote := true,
          isFresher := true,
          url := ("https://remoteok.io").toList }
    else st
  else st

/-- The `OnHTML` handler body of `Scrape` in `3multipleplatform.go`
(lines 126-145): append the job only if it has essential information
(non-empty title and company); no classifier, no dedup. -/
def processPlatformListing (jobs : List RemoteJob) (j : RemoteJob) : List RemoteJob :=
  if j.title ≠ [] ∧ j.company ≠ [] then jobs ++ [j] else jobs

/-! ## Helper lemmas -/

theorem anyContained_iff (keys : List String) (text : List Char) :
    anyContained keys text = true ↔
      ∃ k ∈ keys, containsSub k.toList text = true := by
  simp [anyContained, List.any_eq_true]

theorem addJob_seen_self (st : ScraperState) (r : RemoteJob) :
    (addJob st r).seenJobs (recordID r) = true := by
  by_cases h : st.seenJobs (generateJobID r.title r.company)
  · simp [addJob, recordID, h]
  · simp [addJob, recordID, h]

theorem addJob_seen_mono (st : ScraperState) (r : RemoteJob) (s : List Char)
    (h : st.seenJobs s = true) : (addJob st r).seenJobs s = true := by
  by_cases hs : st.seenJobs (generateJobID r.title r.company)
  · simp [addJob, hs, h]
  · simp only [addJob, hs]
    by_cases he : s = generateJobID r.title r.company <;> simp [he, h]

/-! ## Claim theorems -/

/-- Claim C1: if any `excludeKeywords` phrase is a substring of the
lowercased combined text `title + " " + description`, the fresher
classifier returns `false` — in both `7advanced_remote_scraper.go` and
`6fresher_remote_scraper.go` exclusion is checked first and always wins,
whatever else the text contains. -/
theorem exclusion_always_wins (title description : List Char) :
    ((∃ k ∈ excludeKeywords,
        containsSub k.toList (combinedText title description) = true) →
      isFresherJob title description = false) ∧
    ((∃ k ∈ excludeKeywords6,
        containsSub k.toList (combinedText title description) = true) →
      isFresherJob6 title description = false) := by
  constructor
  · intro h
    have hx : anyContained excludeKeywords (combinedText title description) = true :=
      (anyContained_iff _ _).mpr h
    simp [isFresherJob, hx]
  · intro h
    have hx : anyContained excludeKeywords6 (combinedText title description) = true :=
      (anyContained_iff _ _).mpr h
    simp [isFresherJob6, hx]

/-- Witness for C1: a title holding both the exclude keyword `"senior"`
and the fresher keyword `"fresher"` is rejected by both classifiers. -/
theorem exclusion_always_wins_witness :
    isFresherJob (("Senior Fresher Developer").toList) [] = false ∧
    isFresherJob6 (("Senior Fresher Developer").toList) [] = false :=
  ⟨(exclusion_always_wins _ _).1 ⟨"senior", by decide, by decide⟩,
   (exclusion_always_wins _ _).2 ⟨"senior", by decide, by decide⟩⟩

/-- Claim C2: the dedup key is a pure function of (company, title):
two records agreeing on company and title after the code's normalization
(lowercasing plus space-to-underscore) receive the same `recordID`, no
matter how platform, location, description, salary, posted date or URL
differ. -/
theorem recordID_pure_function_of_company_title (r1 r2 : RemoteJob)
    (hc : underscoreSpaces (lowerStr r1.company) = underscoreSpaces (lowerStr r2.company))
    (ht : underscoreSpaces (lowerStr r1.title) = underscoreSpaces (lowerStr r2.title)) :
    recordID r1 = recordID r2 := by
  simp [recordID, generateJobID, hc, ht]

/-- Witness for C2: same company and title, every other field different,
equal IDs. -/
theorem recordID_pure_function_of_company_title_witness :
    recordID { title := ("Junior Engineer").toList, company := ("Acme").toList,
               platform := ("Indeed").toList, location := ("NYC").toList,
               description := ("great job").toList, salary := ("10").toList,
               postedDate := ("2024-01-01").toList, url := ("https://a.example").toList } =
    recordID { title := ("Junior Engineer").toList, company := ("Acme").toList,
               platform := ("LinkedIn").toList, location := ("Remote").toList,
               description := ("other text").toList, salary := ("99").toList,
               postedDate := ("2025-12-31").toList, url := ("https://b.example").toList } :=
  recordID_pure_function_of_company_title _ _ (by decide) (by decide)

/-- Claim C5 counterexample: `generateJobID` does NOT collapse whitespace
runs and does NOT remove non-alphanumeric characters, so two inputs equal
up to a whitespace run (`"acme  inc"` vs `"acme inc"`), or up to a
non-alphanumeric character (`"dev."` vs `"dev"`), receive different
identities. -/
theorem generateJobID_no_collapse_counterexample :
    generateJobID (("dev").toList) (("acme  inc").toList) ≠
      generateJobID (("dev").toList) (("acme inc").toList) ∧
    generateJobID (("dev.").toList) (("acme").toList) ≠
      generateJobID (("dev").toList) (("acme").toList) := by
  decide

/-- Claim C5 (amended): the identity is computed by lowercasing company
and title, replacing every space with an underscore, and joining company
then title with an underscore separator; two inputs equal up to ASCII
case (and up to interchange of spaces and underscores) receive the same
identity — but whitespace runs are not collapsed and non-alphanumeric
characters are kept. -/
theorem generateJobID_normalization (t1 c1 t2 c2 : List Char)
    (ht : underscoreSpaces (lowerStr t1) = underscoreSpaces (lowerStr t2))
    (hc : underscoreSpaces (lowerStr c1) = underscoreSpaces (lowerStr c2)) :
    generateJobID t1 c1 = generateJobID t2 c2 := by
  simp [generateJobID, ht, hc]

/-- Witness for the amended C5: case change and space/underscore
interchange keep the identity. -/
theorem generateJobID_normalization_witness :
    generateJobID (("Junior Dev").toList) (("Acme").toList) =
      generateJobID (("JUNIOR_DEV").toList) (("ACME").toList) :=
  generateJobID_normalization _ _ _ _ (by decide) (by decide)

/-- Claim C8: the remote check returns `true` exactly when some
`remoteKeywords` phrase is a substring of the lowercased concatenation
`title + " " + location + " " + description`; it is a pure function of
those three fields, with no exclusion check (both scraper variants). -/
theorem isRemoteJob_iff (title location description : List Char) :
    (isRemoteJob title location description = true ↔
      ∃ k ∈ remoteKeywords,
        containsSub k.toList
          (lowerStr (title ++ ' ' :: location ++ ' ' :: description)) = true) ∧
    (isRemoteJob6 title location description = true ↔
      ∃ k ∈ remoteKeywords6,
        containsSub k.toList
          (lowerStr (title ++ ' ' :: location ++ ' ' :: description)) = true) :=
  ⟨by simpa [isRemoteJob] using anyContained_iff remoteKeywords _,
   by simpa [isRemoteJob6] using anyContained_iff remoteKeywords6 _⟩

/-- Claim C10: the identity function is not injective on distinct
listings: `("Junior Dev", "Acme")` and `("Dev", "Acme Junior")` are
different (company, title) pairs with the same generated ID — and when
both are admitted, the second is silently dropped as a duplicate, so only
one record survives. -/
theorem generateJobID_collision :
    (("Acme").toList, ("Junior Dev").toList) ≠ (("Acme Junior").toList, ("Dev").toList) ∧
    generateJobID (("Junior Dev").toList) (("Acme").toList) =
      generateJobID (("Dev").toList) (("Acme Junior").toList) ∧
    generateJobID (("Junior_Dev").toList) (("Acme").toList) =
      generateJobID (("Junior Dev").toList) (("Acme").toList) ∧
    (runJobs
      [{ title := ("Junior Dev").toList, company := ("Acme").toList },
       { title := ("Dev").toList, company := ("Acme Junior").toList }]).jobs.length = 1 := by
  refine ⟨by decide, by decide, by decide, ?_⟩
  decide

theorem addJob_of_seen (st : ScraperState) (j : RemoteJob)
    (h : st.seenJobs (generateJobID j.title j.company) = true) :
    addJob st j = st := by
  simp [addJob, h]

/-- Sample record used by concrete witnesses. -/
def jA : RemoteJob :=
  { title := ("Junior Engineer").toList, company := ("Acme").toList }

/-- Duplicate of `jA` up to (company, title): only the salary differs. -/
def jB : RemoteJob :=
  { title := ("Junior Engineer").toList, company := ("Acme").toList,
    salary := ("999").toList }

/-- Claim C4: admitting is idempotent.  A second `addJob` with the same
(company, title) is a no-op: the whole state (result list and seen-set)
is unchanged.  And the first call, on an unseen identity, appends the
record exactly once. -/
theorem addJob_idempotent (st : ScraperState) (j1 j2 : RemoteJob)
    (ht : j2.title = j1.title) (hc : j2.company = j1.company) :
    addJob (addJob st j1) j2 = addJob st j1 ∧
    (st.seenJobs (recordID j1) = false →
      (addJob st j1).jobs = st.jobs ++ [withID j1]) := by
  constructor
  · apply addJob_of_seen
    rw [ht, hc]
    exact addJob_seen_self st j1
  · intro hnew
    simp only [recordID] at hnew
    simp [addJob, hnew, withID, recordID]

/-- Witness for C4: a concrete record admitted once; its duplicate (same
title and company, different salary) changes nothing. -/
theorem addJob_idempotent_witness :
    addJob (addJob initState jA) jB = addJob initState jA ∧
    (addJob initState jA).jobs = initState.jobs ++ [withID jA] :=
  ⟨(addJob_idempotent initState jA jB rfl rfl).1,
   (addJob_idempotent initState jA jB rfl rfl).2 rfl⟩

/-- Claim C6 counterexample: the combined text `"0 to 2 years"` contains
no exclude keyword and no fresher keyword, yet BOTH classifiers reject it
— the range pattern `0[\s-]?[12]?\s*years?` does not match `"0 to 2
years"` (it allows only whitespace or a dash between the digits and
`years`), contradicting the claim that such phrasing is accepted. -/
theorem fresher_patterns_counterexample :
    anyContained excludeKeywords (combinedText (("0 to 2 years").toList) []) = false ∧
    anyContained fresherKeywords (combinedText (("0 to 2 years").toList) []) = false ∧
    anyContained excludeKeywords6 (combinedText (("0 to 2 years").toList) []) = false ∧
    anyContained fresherKeywords6 (combinedText (("0 to 2 years").toList) []) = false ∧
    isFresherJob (("0 to 2 years").toList) [] = false ∧
    isFresherJob6 (("0 to 2 years").toList) [] = false := by
  decide

/-- Claim C6 (amended): when the combined text contains no exclude
keyword and no fresher keyword, each classifier accepts exactly when one
of its fixed experience-range patterns matches the combined text. -/
theorem fresher_patterns_iff (title description : List Char) :
    (anyContained excludeKeywords (combinedText title description) = false →
      anyContained fresherKeywords (combinedText title description) = false →
      (isFresherJob title description = true ↔
        ∃ p ∈ advPatterns, regexMatch p (combinedText title description) = true)) ∧
    (anyContained excludeKeywords6 (combinedText title description) = false →
      anyContained fresherKeywords6 (combinedText title description) = false →
      (isFresherJob6 title description = true ↔
        ∃ p ∈ frsPatterns, regexMatch p (combinedText title description) = true)) := by
  constructor
  · intro hex hfr
    simp [isFresherJob, hex, hfr, List.any_eq_true]
  · intro hex hfr
    simp [isFresherJob6, hex, hfr, List.any_eq_true]

/-- Witness for the amended C6: `"0 2 years dev"` holds no keyword of
either kind, and is accepted through the range pattern. -/
theorem fresher_patterns_iff_witness :
    isFresherJob (("0 2 years dev").toList) [] = true :=
  ((fresher_patterns_iff (("0 2 years dev").toList) []).1
      (by decide) (by decide)).mpr
    ⟨patYears, by simp [advPatterns], by decide⟩

/-- The structural invariant of the dedup state: stored IDs are pairwise
distinct and are exactly the keys of the `seenJobs` map. -/
def stInv (st : ScraperState) : Prop :=
  (st.jobs.map (fun j => j.id)).Nodup ∧
  ∀ s, (st.seenJobs s = true ↔ s ∈ st.jobs.map (fun j => j.id))

theorem addJob_stInv (st : ScraperState) (r : RemoteJob) (h : stInv st) :
    stInv (addJob st r) := by
  obtain ⟨hnd, hiff⟩ := h
  by_cases hs : st.seenJobs (generateJobID r.title r.company)
  · simpa [addJob, hs] using ⟨hnd, hiff⟩
  · have hnotmem : generateJobID r.title r.company ∉ st.jobs.map (fun j => j.id) := by
      intro hmem
      exact absurd ((hiff _).mpr hmem) (by simp [hs])
    constructor
    · simp only [addJob, hs, if_neg, Bool.false_eq_true, if_false, List.map_append,
        List.map_cons, List.map_nil]
      exact List.Nodup.append hnd (List.nodup_singleton _)
        (fun a ha hb => hnotmem ((List.mem_singleton.mp hb) ▸ ha))
    · intro s
      simp only [addJob, hs, Bool.false_eq_true, if_false, List.map_append,
        List.map_cons, List.map_nil, List.mem_append, List.mem_singleton]
      by_cases he : s = generateJobID r.title r.company
      · simp [he]
      · simp [he, hiff s]

theorem addJob_jobs_mono (st : ScraperState) (r j : RemoteJob)
    (h : j ∈ st.jobs) : j ∈ (addJob st r).jobs := by
  by_cases hs : st.seenJobs (generateJobID r.title r.company) <;>
    simp [addJob, hs, h]

theorem addJob_seen_false (st : ScraperState) (r : RemoteJob) (s : List Char)
    (h : (addJob st r).seenJobs s = false) : st.seenJobs s = false := by
  by_cases hst : st.seenJobs s = true
  · rw [addJob_seen_mono st r s hst] at h
    exact absurd h (by simp)
  · simpa using hst

/-- Unrolling of `List.foldl addJob`: every record in the final list was
already present, or is the FIRST input record carrying its (previously
unseen) ID, stored as `withID` of that input. -/
theorem foldl_addJob_mem (l : List RemoteJob) :
    ∀ st j, j ∈ (List.foldl addJob st l).jobs →
      j ∈ st.jobs ∨
        (st.seenJobs j.id = false ∧
          ∃ r, l.find? (fun r' => recordID r' == j.id) = some r ∧ j = withID r) := by
  induction l with
  | nil => intro st j hj; exact Or.inl hj
  | cons r t ih =>
    intro st j hj
    rcases ih (addJob st r) j hj with hmem | ⟨hseen, r'', hfind, hj''⟩
    · by_cases hs : st.seenJobs (generateJobID r.title r.company)
      · rw [addJob_of_seen st r hs] at hmem
        exact Or.inl hmem
      · rw [show addJob st r =
              { jobs := st.jobs ++ [{ r with id := generateJobID r.title r.company }],
                seenJobs := fun s =>
                  if s = generateJobID r.title r.company then true
                  else st.seenJobs s } by simp [addJob, hs]] at hmem
        rcases List.mem_append.mp hmem with hold | hnew
        · exact Or.inl hold
        · right
          have hj' : j = withID r := by simpa [withID, recordID] using hnew
          have hid : recordID r = j.id := by rw [hj']; rfl
          refine ⟨?_, r, ?_, hj'⟩
          · rw [← hid]
            simpa [recordID] using hs
          · simp [List.find?, hid]
    · right
      have hstseen : st.seenJobs j.id = false := addJob_seen_false st r _ hseen
      have hne : recordID r ≠ j.id := by
        intro heq
        have : (addJob st r).seenJobs j.id = true := heq ▸ addJob_seen_self st r
        rw [this] at hseen
        exact absurd hseen (by simp)
      refine ⟨hstseen, r'', ?_, hj''⟩
      have hbe : (recordID r == j.id) = false := beq_eq_false_iff_ne.mpr hne
      simp [List.find?, hbe, hfind]

theorem foldl_addJob_stInv (l : List RemoteJob) :
    ∀ st, stInv st → stInv (List.foldl addJob st l) := by
  induction l with
  | nil => intro st h; exact h
  | cons r t ih => intro st h; exact ih (addJob st r) (addJob_stInv st r h)

/-- Claim C9: after any sequence of `addJob` calls from the fresh
scraper, the stored IDs are pairwise distinct and are exactly the keys of
`seenJobs`, and the record stored under an ID is the first input record
ever admitted with that ID (`List.find?` returns the first match),
unchanged apart from its `id` field being set. -/
theorem runJobs_invariant (l : List RemoteJob) :
    ((runJobs l).jobs.map (fun j => j.id)).Nodup ∧
    (∀ s, ((runJobs l).seenJobs s = true ↔ s ∈ (runJobs l).jobs.map (fun j => j.id))) ∧
    (∀ j ∈ (runJobs l).jobs,
      ∃ r, l.find? (fun r' => recordID r' == j.id) = some r ∧ j = withID r) := by
  have hinv : stInv (runJobs l) := by
    apply foldl_addJob_stInv
    constructor
    · simp [initState]
    · intro s; simp [initState]
  refine ⟨hinv.1, hinv.2, ?_⟩
  intro j hj
  rcases foldl_addJob_mem l initState j hj with hmem | ⟨_, r, hfind, hj'⟩
  · simp [initState] at hmem
  · exact ⟨r, hfind, hj'⟩

/-- Witness for C9: a concrete two-record run (a record and its
duplicate) in which the stored record is the first input and its ID is a
key of the seen-set. -/
theorem runJobs_invariant_witness :
    (((runJobs [jA, jB]).jobs.map (fun j => j.id)).Nodup) ∧
    ((runJobs [jA, jB]).seenJobs (recordID jA) = true) ∧
    (∃ r, ([jA, jB].find? (fun r' => recordID r' == (withID jA).id) = some r ∧
      withID jA = withID r)) :=
  ⟨(runJobs_invariant [jA, jB]).1,
   ((runJobs_invariant [jA, jB]).2.1 (recordID jA)).mpr (by decide),
   (runJobs_invariant [jA, jB]).2.2 (withID jA) (by decide)⟩

theorem addJob_nonempty_fields (st : ScraperState) (r : RemoteJob)
    (hinv : ∀ j ∈ st.jobs, j.title ≠ [] ∧ j.company ≠ [])
    (ht : r.title ≠ []) (hc : r.company ≠ []) :
    ∀ j ∈ (addJob st r).jobs, j.title ≠ [] ∧ j.company ≠ [] := by
  intro j hj
  by_cases hs : st.seenJobs (generateJobID r.title r.company)
  · rw [addJob_of_seen st r hs] at hj
    exact hinv j hj
  · rw [show addJob st r =
          { jobs := st.jobs ++ [{ r with id := generateJobID r.title r.company }],
            seenJobs := fun s =>
              if s = generateJobID r.title r.company then true
              else st.seenJobs s } by simp [addJob, hs]] at hj
    rcases List.mem_append.mp hj with hold | hnew
    · exact hinv j hold
    · rw [List.mem_singleton] at hnew
      subst hnew
      exact ⟨ht, hc⟩

theorem processRemoteOKListing_nonempty (st : ScraperState) (e : Listing)
    (hinv : ∀ j ∈ st.jobs, j.title ≠ [] ∧ j.company ≠ []) :
    ∀ j ∈ (processRemoteOKListing st e).jobs, j.title ≠ [] ∧ j.company ≠ [] := by
  rw [processRemoteOKListing]
  by_cases hg : e.title ≠ [] ∧ e.company ≠ []
  · rw [if_pos hg]
    by_cases hf : isFresherJob e.title e.tags
    · rw [if_pos hf]
      exact addJob_nonempty_fields st _ hinv hg.1 hg.2
    · rw [if_neg hf]; exact hinv
  · rw [if_neg hg]; exact hinv

/-- Claim C7: a listing with empty title or empty company never enters
the result set.  Every record admitted by the `scrapeRemoteOK` handler
pipeline of `7advanced_remote_scraper.go` (guard, classifier, `addJob`),
and every record kept by the `Scrape` handler of `3multipleplatform.go`,
has non-empty title and non-empty company. -/
theorem admitted_records_nonempty (listings : List Listing) (raws : List RemoteJob) :
    (∀ j ∈ (listings.foldl processRemoteOKListing initState).jobs,
      j.title ≠ [] ∧ j.company ≠ []) ∧
    (∀ j ∈ raws.foldl processPlatformListing [], j.title ≠ [] ∧ j.company ≠ []) := by
  constructor
  · have main : ∀ st, (∀ j ∈ st.jobs, j.title ≠ [] ∧ j.company ≠ []) →
        ∀ j ∈ (listings.foldl processRemoteOKListing st).jobs,
          j.title ≠ [] ∧ j.company ≠ [] := by
      induction listings with
      | nil => intro st h; exact h
      | cons e t ih =>
        intro st h
        exact ih _ (processRemoteOKListing_nonempty st e h)
    exact main initState (by simp [initState])
  · have main : ∀ acc, (∀ j ∈ acc, j.title ≠ [] ∧ j.company ≠ []) →
        ∀ j ∈ raws.foldl processPlatformListing acc, j.title ≠ [] ∧ j.company ≠ [] := by
      induction raws with
      | nil => intro acc h; exact h
      | cons r t ih =>
        intro acc h
        apply ih
        intro j hj
        rw [processPlatformListing] at hj
        by_cases hg : r.title ≠ [] ∧ r.company ≠ []
        · rw [if_pos hg] at hj
          rcases List.mem_append.mp hj with hold | hnew
          · exact h j hold
          · rw [List.mem_singleton] at hnew
            subst hnew
            exact hg
        · rw [if_neg hg] at hj
          exact h j hj
    exact main [] (by simp)

/-- Witness for C7: a one-listing run of the RemoteOK pipeline admits the
listing (it passes the guard and the classifier), and the admitted record
has non-empty title and company; likewise for the platform pipeline. -/
theorem admitted_records_nonempty_witness :
    ((withID { platform := ("RemoteOK").toList,
               title := ("junior dev").toList,
               company := ("Acme").toList,
               location := ("Remote").toList,
               description := ("entry level role").toList,
               isRemote := true, isFresher := true,
               url := ("https://remoteok.io").toList }).title ≠ [] ∧
     (withID { platform := ("RemoteOK").toList,
               title := ("junior dev").toList,
               company := ("Acme").toList,
               location := ("Remote").toList,
               description := ("entry level role").toList,
               isRemote := true, isFresher := true,
               url := ("https://remoteok.io").toList }).company ≠ []) ∧
    (jA.title ≠ [] ∧ jA.company ≠ []) :=
  ⟨(admitted_records_nonempty
      [{ title := ("junior dev").toList, company := ("Acme").toList,
         tags := ("entry level role").toList }] [jA]).1 _ (by decide),
   (admitted_records_nonempty
      [{ title := ("junior dev").toList, company := ("Acme").toList,
         tags := ("entry level role").toList }] [jA]).2 jA (by decide)⟩

/-! ## Interleaving model of concurrent `addJob` callers

`addJob` runs its whole body between `jobsMutex.Lock()` and the deferred
`Unlock()`.  Each worker is modelled with a program counter: acquire the
mutex, read the `seenJobs` map, then either insert (unseen) or skip
(seen) and release.  The shared-memory accesses inside the critical
section are separate transitions; mutual exclusion is what makes the
check-and-insert atomic. -/

/-- Program counter of one worker running `addJob`. -/
inductive TPC where
  | ready
  | locked
  | checked (b : Bool)
  | done
  deriving DecidableEq, Repr

/-- Global state: per-worker program counters, the mutex owner, and the
shared `jobs` slice and `seenJobs` map. -/
structure CState (n : Nat) where
  pcs : Fin n → TPC
  lockOwner : Option (Fin n)
  jobs : List RemoteJob
  seen : List Char → Bool

/-- All workers about to call `addJob` on a fresh scraper. -/
def cinit (n : Nat) : CState n :=
  { pcs := fun _ => TPC.ready, lockOwner := none, jobs := [], seen := fun _ => false }

/-- One interleaving step: worker `i` acquires the free mutex, reads the
seen-map while holding it, and finishes by inserting (if the ID was
unseen) or by doing nothing (if seen), releasing the mutex.  Shared state
is only ever touched by the mutex owner, exactly as in `addJob`. -/
inductive CStep (n : Nat) (jobOf : Fin n → RemoteJob) : CState n → CState n → Prop
  | acquire (s : CState n) (i : Fin n)
      (hpc : s.pcs i = TPC.ready) (hlock : s.lockOwner = none) :
      CStep n jobOf s
        { s with pcs := Function.update s.pcs i TPC.locked, lockOwner := some i }
  | check (s : CState n) (i : Fin n)
      (hpc : s.pcs i = TPC.locked) (hlock : s.lockOwner = some i) :
      CStep n jobOf s
        { s with
          pcs := Function.update s.pcs i (TPC.checked (s.seen (recordID (jobOf i)))) }
  | finishSeen (s : CState n) (i : Fin n)
      (hpc : s.pcs i = TPC.checked true) (hlock : s.lockOwner = some i) :
      CStep n jobOf s
        { s with pcs := Function.update s.pcs i TPC.done, lockOwner := none }
  | finishNew (s : CState n) (i : Fin n)
      (hpc : s.pcs i = TPC.checked false) (hlock : s.lockOwner = some i) :
      CStep n jobOf s
        { pcs := Function.update s.pcs i TPC.done,
          lockOwner := none,
          jobs := s.jobs ++ [withID (jobOf i)],
          seen := fun x => if x = recordID (jobOf i) then true else s.seen x }

/-- Reachability under any interleaving of the workers. -/
def CReach (n : Nat) (jobOf : Fin n → RemoteJob) : CState n → CState n → Prop :=
  Relation.ReflTransGen (CStep n jobOf)

/-- The inductive invariant when all workers carry the same identity `k`:
only the mutex owner is inside the critical section; a worker's check
result reflects the current seen-map; the jobs list holds the record as
soon as (and only when) `k` is seen; any finished worker forces `k`
seen. -/
structure CInv (n : Nat) (jobOf : Fin n → RemoteJob) (k : List Char)
    (s : CState n) : Prop where
  lockOf : ∀ i, (s.pcs i = TPC.locked ∨ ∃ b, s.pcs i = TPC.checked b) →
    s.lockOwner = some i
  checkAcc : ∀ i b, s.pcs i = TPC.checked b → s.seen k = b
  jobsSeen : (s.seen k = false ∧ s.jobs = []) ∨
    (s.seen k = true ∧ ∃ i, s.jobs = [withID (jobOf i)])
  doneSeen : ∀ i, s.pcs i = TPC.done → s.seen k = true

theorem cinv_init (n : Nat) (jobOf : Fin n → RemoteJob) (k : List Char) :
    CInv n jobOf k (cinit n) := by
  refine ⟨?_, ?_, ?_, ?_⟩
  · intro i h
    rcases h with h | ⟨b, h⟩ <;> simp [cinit] at h
  · intro i b h
    simp [cinit] at h
  · exact Or.inl ⟨rfl, rfl⟩
  · intro i h
    simp [cinit] at h

theorem cinv_step (n : Nat) (jobOf : Fin n → RemoteJob) (k : List Char)
    (hk : ∀ i, recordID (jobOf i) = k)
    (s s' : CState n) (hstep : CStep n jobOf s s') (hinv : CInv n jobOf k s) :
    CInv n jobOf k s' := by
  obtain ⟨lockOf, checkAcc, jobsSeen, doneSeen⟩ := hinv
  cases hstep with
  | acquire i hpc hlock =>
    refine ⟨?_, ?_, jobsSeen, ?_⟩
    · intro j hj
      rcases eq_or_ne j i with hij | hij
      · subst hij; rfl
      · have hj' : s.pcs j = TPC.locked ∨ ∃ b, s.pcs j = TPC.checked b := by
          simpa [Function.update_noteq hij] using hj
        have h2 := lockOf j hj'
        rw [hlock] at h2
        exact Option.noConfusion h2
    · intro j b hj
      rcases eq_or_ne j i with hij | hij
      · subst hij
        have hj' : TPC.locked = TPC.checked b := by
          simpa [Function.update_same] using hj
        exact TPC.noConfusion hj'
      · have hj' : s.pcs j = TPC.checked b := by
          simpa [Function.update_noteq hij] using hj
        exact checkAcc j b hj'
    · intro j hj
      rcases eq_or_ne j i with hij | hij
      · subst hij
        have hj' : TPC.locked = TPC.done := by
          simpa [Function.update_same] using hj
        exact TPC.noConfusion hj'
      · have hj' : s.pcs j = TPC.done := by
          simpa [Function.update_noteq hij] using hj
        exact doneSeen j hj'
  | check i hpc hlock =>
    refine ⟨?_, ?_, jobsSeen, ?_⟩
    · intro j hj
      rcases eq_or_ne j i with hij | hij
      · subst hij; exact hlock
      · have hj' : s.pcs j = TPC.locked ∨ ∃ b, s.pcs j = TPC.checked b := by
          simpa [Function.update_noteq hij] using hj
        exact lockOf j hj'
    · intro j b hj
      rcases eq_or_ne j i with hij | hij
      · subst hij
        have hj' : TPC.checked (s.seen (recordID (jobOf j))) = TPC.checked b := by
          simpa [Function.update_same] using hj
        have hb : s.seen (recordID (jobOf j)) = b := by injection hj'
        rw [hk j] at hb
        exact hb
      · have hj' : s.pcs j = TPC.checked b := by
          simpa [Function.update_noteq hij] using hj
        exact checkAcc j b hj'
    · intro j hj
      rcases eq_or_ne j i with hij | hij
      · subst hij
        have hj' : TPC.checked (s.seen (recordID (jobOf j))) = TPC.done := by
          simpa [Function.update_same] using hj
        exact TPC.noConfusion hj'
      · have hj' : s.pcs j = TPC.done := by
          simpa [Function.update_noteq hij] using hj
        exact doneSeen j hj'
  | finishSeen i hpc hlock =>
    refine ⟨?_, ?_, jobsSeen, ?_⟩
    · intro j hj
      exfalso
      rcases eq_or_ne j i with hij | hij
      · subst hij
        have hj' : TPC.done = TPC.locked ∨ ∃ b, TPC.done = TPC.checked b := by
          simpa [Function.update_same] using hj
        rcases hj' with hj' | ⟨b, hj'⟩ <;> exact TPC.noConfusion hj'
      · have hj' : s.pcs j = TPC.locked ∨ ∃ b, s.pcs j = TPC.checked b := by
          simpa [Function.update_noteq hij] using hj
        have h2 := lockOf j hj'
        rw [hlock] at h2
        exact hij (Option.some.inj h2).symm
    · intro j b hj
      rcases eq_or_ne j i with hij | hij
      · subst hij
        have hj' : TPC.done = TPC.checked b := by
          simpa [Function.update_same] using hj
        exact TPC.noConfusion hj'
      · have hj' : s.pcs j = TPC.checked b := by
          simpa [Function.update_noteq hij] using hj
        exact checkAcc j b hj'
    · intro j hj
      rcases eq_or_ne j i with hij | hij
      · subst hij
        exact checkAcc j true hpc
      · have hj' : s.pcs j = TPC.done := by
          simpa [Function.update_noteq hij] using hj
        exact doneSeen j hj'
  | finishNew i hpc hlock =>
    have hunseen : s.seen k = false := checkAcc i false hpc
    have hempty : s.jobs = [] := by
      rcases jobsSeen with ⟨_, hj⟩ | ⟨htrue, _⟩
      · exact hj
      · rw [hunseen] at htrue
        exact Bool.noConfusion htrue
    have hseen' : (fun x => if x = recordID (jobOf i) then true else s.seen x) k = true := by
      have hkk : k = recordID (jobOf i) := (hk i).symm
      simp [hkk]
    refine ⟨?_, ?_, ?_, ?_⟩
    · intro j hj
      exfalso
      rcases eq_or_ne j i with hij | hij
      · subst hij
        have hj' : TPC.done = TPC.locked ∨ ∃ b, TPC.done = TPC.checked b := by
          simpa [Function.update_same] using hj
        rcases hj' with hj' | ⟨b, hj'⟩ <;> exact TPC.noConfusion hj'
      · have hj' : s.pcs j = TPC.locked ∨ ∃ b, s.pcs j = TPC.checked b := by
          simpa [Function.update_noteq hij] using hj
        have h2 := lockOf j hj'
        rw [hlock] at h2
        exact hij (Option.some.inj h2).symm
    · intro j b hj
      exfalso
      rcases eq_or_ne j i with hij | hij
      · subst hij
        have hj' : TPC.done = TPC.checked b := by
          simpa [Function.update_same] using hj
        exact TPC.noConfusion hj'
      · have hj' : s.pcs j = TPC.checked b := by
          simpa [Function.update_noteq hij] using hj
        have h2 := lockOf j (Or.inr ⟨b, hj'⟩)
        rw [hlock] at h2
        exact hij (Option.some.inj h2).symm
    · refine Or.inr ⟨hseen', i, ?_⟩
      show s.jobs ++ [withID (jobOf i)] = [withID (jobOf i)]
      rw [hempty, List.nil_append]
    · intro j hj
      exact hseen'

theorem creach_inv (n : Nat) (jobOf : Fin n → RemoteJob) (k : List Char)
    (hk : ∀ i, recordID (jobOf i) = k)
    (s : CState n) (h : CReach n jobOf (cinit n) s) : CInv n jobOf k s := by
  induction h with
  | refl => exact cinv_init n jobOf k
  | tail hsteps hstep ih => exact cinv_step n jobOf k hk _ _ hstep ih

/-- Claim C3: with the mutex discipline, check-and-insert is atomic.  If
`n` workers (n ≥ 1) concurrently run `addJob` on records sharing one
identity `k`, then in every reachable state in which all workers have
finished, exactly one record was admitted: the final jobs list is a
single record `withID (jobOf i)` for some worker `i` — for every
interleaving of the workers. -/
theorem concurrent_addJob_exactly_one (n : Nat) (jobOf : Fin n → RemoteJob)
    (k : List Char) (hk : ∀ i, recordID (jobOf i) = k)
    (s : CState n) (hreach : CReach n jobOf (cinit n) s)
    (hdone : ∀ i, s.pcs i = TPC.done) (hn : 0 < n) :
    s.jobs.length = 1 ∧ ∃ i, s.jobs = [withID (jobOf i)] := by
  have hinv := creach_inv n jobOf k hk s hreach
  have hseen : s.seen k = true := hinv.doneSeen ⟨0, hn⟩ (hdone ⟨0, hn⟩)
  rcases hinv.jobsSeen with ⟨hfalse, _⟩ | ⟨_, i, hjobs⟩
  · rw [hseen] at hfalse
    exact Bool.noConfusion hfalse
  · exact ⟨by rw [hjobs]; rfl, i, hjobs⟩

/-- Two workers, both holding the same record `jA`. -/
def cJobOf : Fin 2 → RemoteJob := fun _ => jA

/-- Worker 0 has acquired the mutex. -/
def cs1 : CState 2 :=
  { cinit 2 with pcs := Function.update (cinit 2).pcs 0 TPC.locked, lockOwner := some 0 }

/-- Worker 0 has read the seen-map (unseen). -/
def cs2 : CState 2 :=
  { cs1 with
    pcs := Function.update cs1.pcs 0 (TPC.checked (cs1.seen (recordID (cJobOf 0)))) }

/-- Worker 0 has inserted the record and released the mutex. -/
def cs3 : CState 2 :=
  { pcs := Function.update cs2.pcs 0 TPC.done,
    lockOwner := none,
    jobs := cs2.jobs ++ [withID (cJobOf 0)],
    seen := fun x => if x = recordID (cJobOf 0) then true else cs2.seen x }

/-- Worker 1 has acquired the mutex. -/
def cs4 : CState 2 :=
  { cs3 with pcs := Function.update cs3.pcs 1 TPC.locked, lockOwner := some 1 }

/-- Worker 1 has read the seen-map (now seen). -/
def cs5 : CState 2 :=
  { cs4 with
    pcs := Function.update cs4.pcs 1 (TPC.checked (cs4.seen (recordID (cJobOf 1)))) }

/-- Worker 1 has skipped the duplicate and released the mutex. -/
def cs6 : CState 2 :=
  { cs5 with pcs := Function.update cs5.pcs 1 TPC.done, lockOwner := none }

/-- Witness for C3: a complete two-worker interleaving in which both
workers race to admit `jA`; the final state holds exactly one record. -/
theorem concurrent_addJob_exactly_one_witness :
    cs6.jobs.length = 1 ∧ ∃ i, cs6.jobs = [withID (cJobOf i)] :=
  concurrent_addJob_exactly_one 2 cJobOf (recordID jA) (fun _ => rfl) cs6
    (Relation.ReflTransGen.head (CStep.acquire (cinit 2) 0 rfl rfl)
      (Relation.ReflTransGen.head (CStep.check cs1 0 (by decide) rfl)
        (Relation.ReflTransGen.head (CStep.finishNew cs2 0 (by decide) rfl)
          (Relation.ReflTransGen.head (CStep.acquire cs3 1 (by decide) rfl)
            (Relation.ReflTransGen.head (CStep.check cs4 1 (by decide) rfl)
              (Relation.ReflTransGen.head (CStep.finishSeen cs5 1 (by decide) rfl)
                Relation.ReflTransGen.refl))))))
    (by decide) (by decide)

end GetAllJobs
